import Mathlib

/-!
Verification of ethereum-metrics-exporter: the disk usage collector and the
consensus subscription loop.

Shallow embedding of

* `pkg/exporter/disk/disk.go`: `getDiskUsed`, `diskUsage.GetUsage`, the loop of
  `diskUsage.StartAsync`;
* `pkg/exporter/consensus/metrics.go`: `metrics.subscriptionLoop`,
  `metrics.startSubscriptions`.

Go `int64` values are integers reduced with `wrapInt64` after every addition.
The answers of the operating system (`os.Lstat`, `os.Open`, `Readdir`), the
clock and the eth2 client are inputs of the model.
-/

namespace Disk

/-- A Go `error` value, identified with its message. -/
abbrev Error := String

/-- Two's complement reduction of an integer to the range of Go's `int64`. -/
def wrapInt64 (x : Int) : Int := (x + 2 ^ 63) % 2 ^ 64 - 2 ^ 63

/-- An `os.FileInfo` together with what the operating system answers when the
path it describes is opened and listed, so that a value of this type is a finite
filesystem tree.  `file` is anything that is not a directory (regular file,
symbolic link as reported by `Lstat`, device).  For a directory, `openErr` is
the error of `os.Open`, `readdirErr` the error of `dir.Readdir(-1)` and `files`
the entries `Readdir` returned (on an error: the entries read until then). -/
inductive FileInfo where
  | file (name : String) (size : Int)
  | dir (name : String) (size : Int) (openErr : Option Error)
      (readdirErr : Option Error) (files : List FileInfo)

/-- Go: `info.Name()`. -/
def FileInfo.Name : FileInfo → String
  | .file name _ => name
  | .dir name _ _ _ _ => name

/-- Go: `info.Size()`. -/
def FileInfo.Size : FileInfo → Int
  | .file _ size => size
  | .dir _ size _ _ _ => size

/-- Go: `info.IsDir()`. -/
def FileInfo.IsDir : FileInfo → Bool
  | .file _ _ => false
  | .dir _ _ _ _ _ => true

/-- The entries that `Readdir` returned for a directory; a path that is not a
directory has none. -/
def FileInfo.listing : FileInfo → List FileInfo
  | .file _ _ => []
  | .dir _ _ _ _ files => files

/-- The test of the listing loop: `file.Name() == "." || file.Name() == ".."`. -/
def isPseudo (file : FileInfo) : Bool :=
  file.Name == "." || file.Name == ".."

mutual
/-- Go: `getDiskUsed(currentPath, info)`, returning `(size, err)`. -/
def getDiskUsed (currentPath : String) (info : FileInfo) : Int × Option Error :=
  match info with
  | .file _ size => (size, none)
  | .dir _ size openErr readdirErr files =>
    match openErr with
    | some err => (size, some err)
    | none =>
      match readdirErr with
      | some err => (size, some err)
      | none => (rangeFiles currentPath files size, none)
/-- The loop `for _, file := range files` of `getDiskUsed`, started with the
accumulator `size`: pseudo entries are skipped, the error of the recursive call
is discarded (`s, _ := getDiskUsed(...)`) and `size += s` is an `int64`
addition. -/
def rangeFiles (currentPath : String) (files : List FileInfo) (size : Int) : Int :=
  match files with
  | [] => size
  | file :: rest =>
    if isPseudo file then rangeFiles currentPath rest size
    else
      rangeFiles currentPath rest
        (wrapInt64 (size + (getDiskUsed (currentPath ++ "/" ++ file.Name) file).1))
end

/-- Go: `type Usage struct`. -/
structure Usage where
  Directory : String
  UsageBytes : Int
  deriving DecidableEq, Repr

/-- A line written to the logger by `GetUsage`. -/
inductive LogEntry where
  | warnDoesNotExist (directory : String)
  | errorFailedToGetUsage (directory : String) (err : Error)
  deriving DecidableEq, Repr

/-- Everything one call of `GetUsage` produces: the two return values, the
calls of `d.metrics.ObserveDiskUsage` in the order they are made, and the log. -/
structure GetUsageResult where
  diskUsed : List Usage
  err : Option Error
  observed : List Usage
  log : List LogEntry
  deriving DecidableEq, Repr

/-- One iteration of the first loop of `GetUsage` on the state
`(diskUsed, log)`. -/
def GetUsage.visit (Lstat : String → Except Error FileInfo)
    (st : List Usage × List LogEntry) (directory : String) :
    List Usage × List LogEntry :=
  match Lstat directory with
  | .error _ => (st.1, st.2 ++ [LogEntry.warnDoesNotExist directory])
  | .ok info =>
    match getDiskUsed directory info with
    | (_, some err) => (st.1, st.2 ++ [LogEntry.errorFailedToGetUsage directory err])
    | (used, none) => (st.1 ++ [⟨directory, used⟩], st.2)

/-- Go: `(d *diskUsage) GetUsage(ctx, directories)`.  `Lstat` is `os.Lstat` in
the filesystem state of the call. -/
def GetUsage (Lstat : String → Except Error FileInfo) (directories : List String) :
    GetUsageResult :=
  let st := directories.foldl (GetUsage.visit Lstat) ([], [])
  let observed := st.1.foldl (fun sink disk => sink ++ [disk]) []
  ⟨st.1, none, observed, st.2⟩

/-- Which case the `select` of the loop of `StartAsync` takes in one iteration. -/
inductive SelectCase where
  | ctxDone
  | timeAfter
  deriving DecidableEq, Repr

/-- The loop of `(d *diskUsage) StartAsync`: one element of `selects` per
iteration.  The result is the list of `GetUsage` results in call order and
whether the goroutine has returned. -/
def StartAsync.loop (Lstat : String → Except Error FileInfo) (directories : List String) :
    List SelectCase → List GetUsageResult × Bool
  | [] => ([], false)
  | .ctxDone :: _ => ([], true)
  | .timeAfter :: rest =>
    let r := StartAsync.loop Lstat directories rest
    (GetUsage Lstat directories :: r.1, r.2)

/-! ### Specification-side definitions for the disk collector -/

mutual
/-- Every `os.Open` and every `Readdir` in the tree succeeds. -/
def allOk : FileInfo → Bool
  | .file _ _ => true
  | .dir _ _ openErr readdirErr files =>
    openErr.isNone && readdirErr.isNone && allOkList files
/-- List part of `allOk`; pseudo entries are never opened. -/
def allOkList : List FileInfo → Bool
  | [] => true
  | file :: rest => (isPseudo file || allOk file) && allOkList rest
end

mutual
/-- Every reported size that `getDiskUsed` reads is non-negative. -/
def nonNeg : FileInfo → Bool
  | .file _ size => decide (0 ≤ size)
  | .dir _ size _ _ files => decide (0 ≤ size) && nonNegList files
/-- List part of `nonNeg`. -/
def nonNegList : List FileInfo → Bool
  | [] => true
  | file :: rest => (isPseudo file || nonNeg file) && nonNegList rest
end

mutual
/-- Specification: the sum, over the integers, of the reported sizes of every
node of the tree, the root included; the pseudo entries are not nodes. -/
def treeSize : FileInfo → Int
  | .file _ size => size
  | .dir _ size _ _ files => size + treeSizeList files
/-- List part of `treeSize`. -/
def treeSizeList : List FileInfo → Int
  | [] => 0
  | file :: rest =>
    if isPseudo file then treeSizeList rest else treeSize file + treeSizeList rest
end

mutual
/-- The sum, over the integers, of the reported sizes of the nodes that
`getDiskUsed` reaches: a directory whose open or listing fails counts with its
own reported size only. -/
def measured : FileInfo → Int
  | .file _ size => size
  | .dir _ size openErr readdirErr files =>
    if openErr.isNone && readdirErr.isNone then size + measuredList files else size
/-- List part of `measured`. -/
def measuredList : List FileInfo → Int
  | [] => 0
  | file :: rest =>
    if isPseudo file then measuredList rest else measured file + measuredList rest
end

/-- The entries of a listing that the loop of `getDiskUsed` measures. -/
def realEntries (files : List FileInfo) : List FileInfo :=
  files.filter (fun file => !isPseudo file)

/-- What each measured entry of a listing adds to the size of its directory. -/
def contributions (currentPath : String) (files : List FileInfo) : List Int :=
  (realEntries files).map
    (fun file => (getDiskUsed (currentPath ++ "/" ++ file.Name) file).1)

/-- The directory passes the two error returns of `getDiskUsed` at the top
level: it is not a directory, or its open and its listing succeed. -/
def topLevelOk : FileInfo → Bool
  | .file _ _ => true
  | .dir _ _ openErr readdirErr _ => openErr.isNone && readdirErr.isNone

/-- The record that one iteration of the first loop of `GetUsage` appends for
`directory`, if it appends one. -/
def recordOf (Lstat : String → Except Error FileInfo) (directory : String) : Option Usage :=
  match Lstat directory with
  | .error _ => none
  | .ok info =>
    match getDiskUsed directory info with
    | (_, some _) => none
    | (used, none) => some ⟨directory, used⟩

/-- The error that `getDiskUsed` meets at the path itself: none for a path that
is not a directory, otherwise the error of `os.Open` or, when the open succeeds,
the error of `Readdir`. -/
def topLevelErr : FileInfo → Option Error
  | .file _ _ => none
  | .dir _ _ openErr readdirErr _ =>
    match openErr with
    | some err => some err
    | none => readdirErr

/-- The lines that one iteration of the first loop of `GetUsage` writes to the
log for `directory`. -/
def logOf (Lstat : String → Except Error FileInfo) (directory : String) : List LogEntry :=
  match Lstat directory with
  | .error _ => [LogEntry.warnDoesNotExist directory]
  | .ok info =>
    match topLevelErr info with
    | some err => [LogEntry.errorFailedToGetUsage directory err]
    | none => []

/-! ### Example filesystems -/

/-- A filesystem in which `path` is described by `info` and no other path
exists. -/
def lstatOnly (path : String) (info : FileInfo) : String → Except Error FileInfo :=
  fun p => if p = path then .ok info else .error "no such file or directory"

/-- A directory holding two sparse files of `2 ^ 62` bytes each. -/
def sparseDir : FileInfo :=
  .dir "data" 0 none none [.file "a" (2 ^ 62), .file "b" (2 ^ 62)]

/-- A root directory whose entries are a file `A` of 10 bytes and a directory
`B` whose only entry is a file `C` of 5 bytes; the two directories report the
sizes `rootSize` and `bSize`. -/
def compositionTree (rootSize bSize : Int) : FileInfo :=
  .dir "root" rootSize none none
    [.file "A" 10, .dir "B" bSize none none [.file "C" 5]]

/-- A directory that `os.Open` refuses to open. -/
def unreadableDir : FileInfo :=
  .dir "data" 4096 (some "permission denied") none []

/-- A directory whose listing fails after one 8-byte file has been read. -/
def listingFailsDir : FileInfo :=
  .dir "data" 4096 none (some "input/output error") [.file "a" 8]

/-- A directory holding one readable 8-byte file followed by a directory that
cannot be opened. -/
def halfReadableDir : FileInfo :=
  .dir "data" 4096 none none
    [.file "a" 8, .dir "locked" 4096 (some "permission denied") none [.file "z" 100]]

end Disk

namespace Consensus

/-- A Go `error` value, identified with its message. -/
abbrev Error := String

/-- A `time.Time` instant, in nanoseconds after the zero `Time`. -/
abbrev Time := Int

/-- A `time.Duration`: an `int64` count of nanoseconds. -/
abbrev Duration := Int

/-- Go: `time.Second`. -/
def Second : Duration := 1000000000

/-- Go: `time.Minute`. -/
def Minute : Duration := 60 * Second

/-- The largest `time.Duration`. -/
def maxDuration : Duration := 2 ^ 63 - 1

/-- The smallest `time.Duration`. -/
def minDuration : Duration := -(2 ^ 63)

/-- The zero value of `time.Time`, which a `LastEventTime` that was never set
holds. -/
def zeroTime : Time := 0

/-- Go standard library: `t.Sub(u)`, the difference of two instants, saturated
to the range of `time.Duration`. -/
def Sub (t u : Time) : Duration :=
  if t - u > maxDuration then maxDuration
  else if t - u < minDuration then minDuration
  else t - u

/-- Go standard library: `time.Since(t)`, where `now` is the reading of the
clock at the call. -/
def Since (now t : Time) : Duration := Sub now t

/-- A `context.Context`, reduced to whether it has been cancelled. -/
structure Context where
  Done : Bool
  deriving DecidableEq, Repr

/-- The `eth2client.Service` held in `m.client`: whether the value implements
`eth2client.EventsProvider`, and what `provider.Events(ctx, topics, handler)`
returns. -/
structure Service where
  isEventsProvider : Bool
  Events : Context → List String → Option Error

/-- The fields of `metrics` that `subscriptionLoop` reads; `client = none` is a
nil `m.client`. -/
structure Metrics where
  client : Option Service

/-- What `subscriptionLoop` and `startSubscriptions` do to the outside, in
order. -/
inductive Action where
  | infoReSubscribing (lastEventTime : Time)
  | infoStartingSubscriptions
  | eventsCall (topics : List String)
  | errorfFailedToSubscribe (err : Error)
  deriving DecidableEq, Repr

/-- The loop of `startSubscriptions` over `v1.SupportedEventTopics`.  The Go map
is given as the list of its entries in the order the `range` visits them. -/
def startSubscriptions.topics (SupportedEventTopics : List (String × Bool)) : List String :=
  SupportedEventTopics.foldl
    (fun topics entry =>
      if entry.1 == "contribution_and_proof" then topics
      else if entry.2 then topics ++ [entry.1]
      else topics)
    []

/-- Go: `(m *metrics) startSubscriptions(ctx)`, returning its error and what it
did. -/
def startSubscriptions (SupportedEventTopics : List (String × Bool)) (m : Metrics)
    (ctx : Context) : Option Error × List Action :=
  match m.client with
  | none =>
    (some "client does not implement eth2client.Subscriptions",
      [Action.infoStartingSubscriptions])
  | some provider =>
    if !provider.isEventsProvider then
      (some "client does not implement eth2client.Subscriptions",
        [Action.infoStartingSubscriptions])
    else
      let topics := startSubscriptions.topics SupportedEventTopics
      match provider.Events ctx topics with
      | some err => (some err, [Action.infoStartingSubscriptions, Action.eventsCall topics])
      | none => (none, [Action.infoStartingSubscriptions, Action.eventsCall topics])

/-- What one iteration of `subscriptionLoop` reads from outside: the clock, the
field `m.eventMetrics.LastEventTime` and the context. -/
structure Tick where
  now : Time
  LastEventTime : Time
  ctx : Context

/-- First statement of the body of `subscriptionLoop`: the staleness check.
Returns the new value of `subscribed` and what was logged. -/
def subscriptionLoop.check (now lastEventTime : Time) (subscribed : Bool) :
    Bool × List Action :=
  if subscribed && decide (Since now lastEventTime > 5 * Minute) then
    (false, [Action.infoReSubscribing lastEventTime])
  else (subscribed, [])

/-- Second statement of the body of `subscriptionLoop`: the subscribe attempt. -/
def subscriptionLoop.subscribe (SupportedEventTopics : List (String × Bool)) (m : Metrics)
    (ctx : Context) (subscribed : Bool) : Bool × List Action :=
  if !subscribed && m.client.isSome then
    match startSubscriptions SupportedEventTopics m ctx with
    | (some err, acts) => (subscribed, acts ++ [Action.errorfFailedToSubscribe err])
    | (none, acts) => (true, acts)
  else (subscribed, [])

/-- The body of the `for` of `subscriptionLoop`, up to the `time.Sleep`. -/
def subscriptionLoop.iteration (SupportedEventTopics : List (String × Bool)) (m : Metrics)
    (tick : Tick) (subscribed : Bool) : Bool × List Action :=
  let c := subscriptionLoop.check tick.now tick.LastEventTime subscribed
  let s := subscriptionLoop.subscribe SupportedEventTopics m tick.ctx c.1
  (s.1, c.2 ++ s.2)

/-- The state of a run of `subscriptionLoop`: the local `subscribed`, what was
done so far, and whether the function has returned. -/
structure LoopRun where
  subscribed : Bool
  actions : List Action
  returned : Bool
  deriving DecidableEq, Repr

/-- The `for` of `subscriptionLoop` from a given value of `subscribed`, one
element of `ticks` per iteration.  The Go loop has no `return`, no `break` and
no `select`: when the ticks are used up the goroutine is in `time.Sleep`. -/
def subscriptionLoop.run (SupportedEventTopics : List (String × Bool)) (m : Metrics) :
    List Tick → Bool → LoopRun
  | [], subscribed => ⟨subscribed, [], false⟩
  | tick :: rest, subscribed =>
    let it := subscriptionLoop.iteration SupportedEventTopics m tick subscribed
    let r := subscriptionLoop.run SupportedEventTopics m rest it.1
    ⟨r.subscribed, it.2 ++ r.actions, r.returned⟩

/-- Go: `(m *metrics) subscriptionLoop(ctx)`, which starts with
`subscribed := false`. -/
def subscriptionLoop (SupportedEventTopics : List (String × Bool)) (m : Metrics)
    (ticks : List Tick) : LoopRun :=
  subscriptionLoop.run SupportedEventTopics m ticks false

/-- The calls of `provider.Events` among a list of actions. -/
def eventsCalls (acts : List Action) : List (List String) :=
  acts.filterMap (fun a => match a with
    | Action.eventsCall topics => some topics
    | _ => none)

/-- The number of calls of `startSubscriptions` among a list of actions, each
of which logs "starting subscriptions" first. -/
def subscribeAttempts (acts : List Action) : Nat :=
  acts.count Action.infoStartingSubscriptions

/-! ### Example inputs -/

/-- The supported-topics map of the topic selection example. -/
def exampleTopics : List (String × Bool) :=
  [("head", true), ("block", true), ("contribution_and_proof", true), ("chain_reorg", false)]

/-- An events provider whose `Events` call always succeeds. -/
def acceptingService : Service := ⟨true, fun _ _ => none⟩

/-- An events provider whose `Events` call fails once the context is cancelled. -/
def cancellableService : Service :=
  ⟨true, fun ctx _ => if ctx.Done then some "context canceled" else none⟩

/-- A reading of the clock in the year 2026: 63 900 000 000 seconds after the
zero `Time`. -/
def clock2026 : Time := 63900000000 * Second

/-- A tick at `clock2026` at which the last event is one second old and the
context is cancelled. -/
def cancelledTick : Tick := ⟨clock2026, clock2026 - Second, ⟨true⟩⟩

end Consensus

/-! ## Theorems: disk usage collector -/

namespace Disk

theorem wrapInt64_of_fits (x : Int) (h0 : -(2 ^ 63) ≤ x) (h1 : x < 2 ^ 63) :
    wrapInt64 x = x := by
  unfold wrapInt64
  rw [Int.emod_eq_of_lt (by omega) (by omega)]
  omega

mutual
theorem measured_nonneg : ∀ info : FileInfo, nonNeg info = true → 0 ≤ measured info
  | .file _ size, h => by
    simpa [nonNeg, measured] using h
  | .dir _ size openErr readdirErr files, h => by
    simp only [nonNeg, Bool.and_eq_true, decide_eq_true_eq] at h
    have hl := measuredList_nonneg files h.2
    simp only [measured]
    split <;> omega
theorem measuredList_nonneg : ∀ files : List FileInfo, nonNegList files = true →
    0 ≤ measuredList files
  | [], _ => by simp [measuredList]
  | file :: rest, h => by
    simp only [nonNegList, Bool.and_eq_true, Bool.or_eq_true] at h
    have hr := measuredList_nonneg rest h.2
    simp only [measuredList]
    split
    · exact hr
    · rename_i hp
      have hf := measured_nonneg file (by
        rcases h.1 with h1 | h1
        · exact absurd h1 hp
        · exact h1)
      omega
end

mutual
theorem getDiskUsed_fst_eq_measured : ∀ (currentPath : String) (info : FileInfo),
    nonNeg info = true → measured info < 2 ^ 63 →
    (getDiskUsed currentPath info).1 = measured info
  | _, .file _ size, _, _ => by simp [getDiskUsed, measured]
  | currentPath, .dir _ size openErr readdirErr files, h, hfit => by
    simp only [nonNeg, Bool.and_eq_true, decide_eq_true_eq] at h
    cases openErr with
    | some e => simp [getDiskUsed, measured]
    | none =>
      cases readdirErr with
      | some e => simp [getDiskUsed, measured]
      | none =>
        simp only [measured, Option.isNone_none, Bool.and_self, if_true] at hfit
        simp only [getDiskUsed, measured, Option.isNone_none, Bool.and_self, if_true]
        exact rangeFiles_eq_measured currentPath files size h.2 h.1 hfit
theorem rangeFiles_eq_measured : ∀ (currentPath : String) (files : List FileInfo) (size : Int),
    nonNegList files = true → 0 ≤ size → size + measuredList files < 2 ^ 63 →
    rangeFiles currentPath files size = size + measuredList files
  | _, [], size, _, _, _ => by simp [rangeFiles, measuredList]
  | currentPath, file :: rest, size, h, h0, hfit => by
    simp only [nonNegList, Bool.and_eq_true, Bool.or_eq_true] at h
    have hr := measuredList_nonneg rest h.2
    by_cases hp : isPseudo file = true
    · simp only [measuredList, hp, if_true] at hfit
      simp only [rangeFiles, measuredList, hp, if_true]
      exact rangeFiles_eq_measured currentPath rest size h.2 h0 hfit
    · have hnn : nonNeg file = true := by
        rcases h.1 with h1 | h1
        · exact absurd h1 hp
        · exact h1
      have hf := measured_nonneg file hnn
      simp only [measuredList, hp] at hfit
      simp only [Bool.false_eq_true, if_false] at hfit
      have hrec := getDiskUsed_fst_eq_measured (currentPath ++ "/" ++ file.Name) file hnn
        (by omega)
      simp only [rangeFiles, measuredList, hp, Bool.false_eq_true, if_false]
      rw [hrec, wrapInt64_of_fits _ (by omega) (by omega)]
      rw [rangeFiles_eq_measured currentPath rest (size + measured file) h.2 (by omega)
        (by omega)]
      omega
end

end Disk

namespace Disk

mutual
theorem measured_eq_treeSize : ∀ info : FileInfo, allOk info = true →
    measured info = treeSize info
  | .file _ _, _ => by simp [measured, treeSize]
  | .dir _ size openErr readdirErr files, h => by
    simp only [allOk, Bool.and_eq_true] at h
    simp only [measured, treeSize, h.1.1, h.1.2, Bool.and_self, if_true]
    rw [measuredList_eq_treeSizeList files h.2]
theorem measuredList_eq_treeSizeList : ∀ files : List FileInfo, allOkList files = true →
    measuredList files = treeSizeList files
  | [], _ => by simp [measuredList, treeSizeList]
  | file :: rest, h => by
    simp only [allOkList, Bool.and_eq_true, Bool.or_eq_true] at h
    have hr := measuredList_eq_treeSizeList rest h.2
    by_cases hp : isPseudo file = true
    · simp only [measuredList, treeSizeList, hp, if_true, hr]
    · have hf := measured_eq_treeSize file (by
        rcases h.1 with h1 | h1
        · exact absurd h1 hp
        · exact h1)
      simp only [measuredList, treeSizeList, hp, Bool.false_eq_true, if_false, hr, hf]
end

theorem getDiskUsed_snd (currentPath : String) (info : FileInfo) :
    (getDiskUsed currentPath info).2 = none ↔ topLevelOk info = true := by
  cases info with
  | file name size => simp [getDiskUsed, topLevelOk]
  | dir name size openErr readdirErr files =>
    cases openErr <;> cases readdirErr <;> simp [getDiskUsed, topLevelOk]

theorem topLevelOk_of_allOk (info : FileInfo) (h : allOk info = true) :
    topLevelOk info = true := by
  cases info with
  | file name size => rfl
  | dir name size openErr readdirErr files =>
    simp only [allOk, Bool.and_eq_true] at h
    simp [topLevelOk, h.1.1, h.1.2]

theorem contributions_sum (currentPath : String) : ∀ files : List FileInfo,
    nonNegList files = true → measuredList files < 2 ^ 63 →
    (contributions currentPath files).sum = measuredList files
  | [], _, _ => by simp [contributions, realEntries, measuredList]
  | file :: rest, h, hfit => by
    simp only [nonNegList, Bool.and_eq_true, Bool.or_eq_true] at h
    have hr := measuredList_nonneg rest h.2
    by_cases hp : isPseudo file = true
    · simp only [measuredList, hp, if_true] at hfit
      have ih := contributions_sum currentPath rest h.2 hfit
      simp only [contributions, realEntries] at ih
      simp [contributions, realEntries, measuredList, hp, ih]
    · have hnn : nonNeg file = true := by
        rcases h.1 with h1 | h1
        · exact absurd h1 hp
        · exact h1
      have hf := measured_nonneg file hnn
      simp only [measuredList, hp, Bool.false_eq_true, if_false] at hfit
      have ih := contributions_sum currentPath rest h.2 (by omega)
      have hrec := getDiskUsed_fst_eq_measured (currentPath ++ "/" ++ file.Name) file hnn
        (by omega)
      simp only [contributions, realEntries] at ih
      simp [contributions, realEntries, measuredList, hp, ih, hrec]

theorem nonNegList_take : ∀ (k : Nat) (files : List FileInfo),
    nonNegList files = true → nonNegList (files.take k) = true
  | 0, _, _ => by simp [nonNegList]
  | _ + 1, [], _ => by simp [nonNegList]
  | k + 1, file :: rest, h => by
    simp only [nonNegList, Bool.and_eq_true] at h
    simp only [List.take_succ_cons, nonNegList, Bool.and_eq_true]
    exact ⟨h.1, nonNegList_take k rest h.2⟩

theorem measuredList_take_le : ∀ (k : Nat) (files : List FileInfo),
    nonNegList files = true → measuredList (files.take k) ≤ measuredList files
  | 0, files, h => by
    simpa [measuredList] using measuredList_nonneg files h
  | _ + 1, [], _ => by simp [measuredList]
  | k + 1, file :: rest, h => by
    simp only [nonNegList, Bool.and_eq_true] at h
    have ih := measuredList_take_le k rest h.2
    simp only [List.take_succ_cons, measuredList]
    split <;> omega

theorem foldl_visit_fst (Lstat : String → Except Error FileInfo) :
    ∀ (directories : List String) (st : List Usage × List LogEntry),
    (directories.foldl (GetUsage.visit Lstat) st).1
      = st.1 ++ directories.filterMap (recordOf Lstat)
  | [], st => by simp
  | directory :: rest, st => by
    rw [List.foldl_cons, foldl_visit_fst Lstat rest]
    have hv : (GetUsage.visit Lstat st directory).1
        = st.1 ++ (recordOf Lstat directory).toList := by
      unfold GetUsage.visit recordOf
      cases Lstat directory with
      | error e => simp
      | ok info =>
        rcases hg : getDiskUsed directory info with ⟨used, err⟩
        cases err <;> simp [hg]
    rw [hv, List.filterMap_cons]
    cases recordOf Lstat directory <;> simp

theorem foldl_observe (l : List Usage) : ∀ sink : List Usage,
    l.foldl (fun sink disk => sink ++ [disk]) sink = sink ++ l := by
  induction l with
  | nil => simp
  | cons a l ih => intro sink; simp [ih]

theorem GetUsage_diskUsed (Lstat : String → Except Error FileInfo)
    (directories : List String) :
    (GetUsage Lstat directories).diskUsed = directories.filterMap (recordOf Lstat) := by
  simp [GetUsage, foldl_visit_fst]

theorem GetUsage_observed (Lstat : String → Except Error FileInfo)
    (directories : List String) :
    (GetUsage Lstat directories).observed = (GetUsage Lstat directories).diskUsed := by
  simp [GetUsage, foldl_observe]

theorem recordOf_directory (Lstat : String → Except Error FileInfo) (directory : String)
    (u : Usage) (h : recordOf Lstat directory = some u) : u.Directory = directory := by
  unfold recordOf at h
  cases hl : Lstat directory with
  | error e => simp [hl] at h
  | ok info =>
    rcases hg : getDiskUsed directory info with ⟨used, err⟩
    simp only [hl, hg] at h
    cases err with
    | some e => simp at h
    | none =>
      simp only [Option.some.injEq] at h
      rw [← h]

end Disk

namespace Disk

theorem recordOf_of_ok (Lstat : String → Except Error FileInfo) (directory : String)
    (info : FileInfo) (hstat : Lstat directory = .ok info) :
    recordOf Lstat directory
      = if topLevelOk info = true then
          some ⟨directory, (getDiskUsed directory info).1⟩
        else none := by
  have hs := getDiskUsed_snd directory info
  unfold recordOf
  rcases hg : getDiskUsed directory info with ⟨used, err⟩
  rw [hg] at hs
  simp only [hstat]
  cases err with
  | none =>
    have ht : topLevelOk info = true := hs.1 rfl
    simp [ht, hg]
  | some e =>
    have ht : ¬ topLevelOk info = true := fun h => by simpa using hs.2 h
    simp [ht, hg]

theorem recordOf_of_error (Lstat : String → Except Error FileInfo) (directory : String)
    (e : Error) (hstat : Lstat directory = .error e) : recordOf Lstat directory = none := by
  simp [recordOf, hstat]

theorem filterMap_recordOf_filter (Lstat : String → Except Error FileInfo) (missing : String)
    (hnone : recordOf Lstat missing = none) : ∀ directories : List String,
    directories.filterMap (recordOf Lstat)
      = (directories.filter (fun d => decide (d ≠ missing))).filterMap (recordOf Lstat)
  | [] => by simp
  | d :: rest => by
    have ih := filterMap_recordOf_filter Lstat missing hnone rest
    by_cases hd : d = missing
    · subst hd
      simp [List.filterMap_cons, hnone, ih]
    · simp [List.filterMap_cons, List.filter_cons, hd, ih]

theorem map_directory_sublist (Lstat : String → Except Error FileInfo) :
    ∀ directories : List String,
    List.Sublist ((directories.filterMap (recordOf Lstat)).map Usage.Directory) directories
  | [] => by simp
  | d :: rest => by
    have ih := map_directory_sublist Lstat rest
    cases hr : recordOf Lstat d with
    | none =>
      rw [List.filterMap_cons_none hr]
      exact List.Sublist.cons d ih
    | some u =>
      rw [List.filterMap_cons_some hr, List.map_cons, recordOf_directory Lstat d u hr]
      exact List.Sublist.cons₂ d ih

end Disk

namespace Disk

/-- C1, as stated, fails: in a directory holding two sparse files of `2 ^ 62`
bytes every open and listing succeeds and the sizes add up to `2 ^ 63`, but the
`int64` additions of `getDiskUsed` wrap and it returns `-(2 ^ 63)`, which is
neither the sum of the sizes of the nodes nor its own size plus the sum of what
`getDiskUsed` returns for the entries. -/
theorem getDiskUsed_sparseDir_wraps :
    allOk sparseDir = true ∧ treeSize sparseDir = 2 ^ 63 ∧
    getDiskUsed "/data" sparseDir = (-(2 ^ 63), none) ∧
    (getDiskUsed "/data" sparseDir).1 ≠ treeSize sparseDir ∧
    (getDiskUsed "/data" sparseDir).1
      ≠ sparseDir.Size + (contributions "/data" sparseDir.listing).sum := by
  decide

/-- C1, amended: in a tree in which every open and listing succeeds, every
reported size is non-negative and the sizes of all nodes add up to less than
`2 ^ 63`, `getDiskUsed` returns no error and the sum of the reported sizes of
every node, the root included; that value is the reported size of a path that is
not a directory, and for a directory its own reported size plus the sum of
`getDiskUsed` over the listing entries other than "." and "..". -/
theorem getDiskUsed_eq_treeSize (currentPath : String) (info : FileInfo)
    (hok : allOk info = true) (hnn : nonNeg info = true) (hfit : treeSize info < 2 ^ 63) :
    getDiskUsed currentPath info = (treeSize info, none) ∧
    (getDiskUsed currentPath info).1
      = if info.IsDir = true then
          info.Size + (contributions currentPath info.listing).sum
        else info.Size := by
  have hm := measured_eq_treeSize info hok
  have h1 := getDiskUsed_fst_eq_measured currentPath info hnn (by omega)
  have h2 := (getDiskUsed_snd currentPath info).2 (topLevelOk_of_allOk info hok)
  refine ⟨Prod.ext (by rw [h1, hm]) h2, ?_⟩
  cases info with
  | file name size => simp [getDiskUsed, FileInfo.IsDir, FileInfo.Size]
  | dir name size openErr readdirErr files =>
    simp only [allOk, Bool.and_eq_true] at hok
    simp only [nonNeg, Bool.and_eq_true, decide_eq_true_eq] at hnn
    rw [h1]
    simp only [measured, hok.1.1, hok.1.2, Bool.and_self, if_true] at hm ⊢
    simp only [treeSize] at hfit
    have hl := measuredList_eq_treeSizeList files hok.2
    simp only [FileInfo.IsDir, FileInfo.Size, FileInfo.listing, if_true]
    rw [contributions_sum currentPath files hnn.2 (by omega)]

/-- Witness of `getDiskUsed_eq_treeSize`: a root of 4096 bytes holding a file of
10 bytes and a directory of 4096 bytes that holds a file of 5 bytes. -/
theorem getDiskUsed_eq_treeSize_witness :
    allOk (compositionTree 4096 4096) = true ∧
    nonNeg (compositionTree 4096 4096) = true ∧
    treeSize (compositionTree 4096 4096) < 2 ^ 63 ∧
    getDiskUsed "/root" (compositionTree 4096 4096) = (8207, none) :=
  ⟨by decide, by decide, by decide,
    (getDiskUsed_eq_treeSize "/root" (compositionTree 4096 4096)
      (by decide) (by decide) (by decide)).1.trans (by decide)⟩

end Disk

namespace Disk

theorem getDiskUsed_snd_eq (currentPath : String) (info : FileInfo) :
    (getDiskUsed currentPath info).2 = topLevelErr info := by
  cases info with
  | file name size => simp [getDiskUsed, topLevelErr]
  | dir name size openErr readdirErr files =>
    cases openErr <;> cases readdirErr <;> simp [getDiskUsed, topLevelErr]

theorem getDiskUsed_of_topLevelErr (path : String) (sub : FileInfo) (e : Error)
    (h : topLevelErr sub = some e) : getDiskUsed path sub = (sub.Size, some e) := by
  cases sub with
  | file name size => simp [topLevelErr] at h
  | dir name size openErr readdirErr files =>
    cases openErr with
    | some e1 =>
      simp only [topLevelErr, Option.some.injEq] at h
      simp [getDiskUsed, FileInfo.Size, h]
    | none =>
      cases readdirErr with
      | some e2 =>
        simp only [topLevelErr, Option.some.injEq] at h
        simp [getDiskUsed, FileInfo.Size, h]
      | none => simp [topLevelErr] at h

theorem topLevelOk_iff_topLevelErr (info : FileInfo) :
    topLevelOk info = true ↔ topLevelErr info = none := by
  cases info with
  | file name size => simp [topLevelOk, topLevelErr]
  | dir name size openErr readdirErr files =>
    cases openErr <;> cases readdirErr <;> simp [topLevelOk, topLevelErr]

theorem visit_snd (Lstat : String → Except Error FileInfo) (st : List Usage × List LogEntry)
    (directory : String) :
    (GetUsage.visit Lstat st directory).2 = st.2 ++ logOf Lstat directory := by
  unfold GetUsage.visit logOf
  cases Lstat directory with
  | error e => simp
  | ok info =>
    have hs := getDiskUsed_snd_eq directory info
    rcases hg : getDiskUsed directory info with ⟨used, err⟩
    rw [hg] at hs
    simp only at hs
    simp only [hg, ← hs]
    cases err <;> simp

theorem mem_foldl_visit_snd (Lstat : String → Except Error FileInfo) (entry : LogEntry) :
    ∀ (directories : List String) (st : List Usage × List LogEntry),
    entry ∈ (directories.foldl (GetUsage.visit Lstat) st).2
      ↔ entry ∈ st.2 ∨ ∃ d ∈ directories, entry ∈ logOf Lstat d
  | [], st => by simp
  | d :: rest, st => by
    rw [List.foldl_cons, mem_foldl_visit_snd Lstat entry rest, visit_snd, List.mem_append]
    simp only [List.mem_cons, exists_eq_or_imp]
    tauto

theorem logOf_error_directory (Lstat : String → Except Error FileInfo) (d directory : String)
    (e : Error) (h : LogEntry.errorFailedToGetUsage directory e ∈ logOf Lstat d) :
    d = directory := by
  unfold logOf at h
  cases hl : Lstat d with
  | error e1 => simp [hl] at h
  | ok info =>
    simp only [hl] at h
    cases ht : topLevelErr info with
    | none => simp [ht] at h
    | some e2 =>
      simp only [ht, List.mem_singleton, LogEntry.errorFailedToGetUsage.injEq] at h
      exact h.1.symm

theorem mem_log_error (Lstat : String → Except Error FileInfo) (directories : List String)
    (directory : String) (info : FileInfo) (e : Error) (hmem : directory ∈ directories)
    (hstat : Lstat directory = .ok info) :
    LogEntry.errorFailedToGetUsage directory e ∈ (GetUsage Lstat directories).log
      ↔ topLevelErr info = some e := by
  have hlog : ∀ entry, entry ∈ (GetUsage Lstat directories).log
      ↔ ∃ d ∈ directories, entry ∈ logOf Lstat d := by
    intro entry
    simp [GetUsage, mem_foldl_visit_snd]
  have hown : LogEntry.errorFailedToGetUsage directory e ∈ logOf Lstat directory
      ↔ topLevelErr info = some e := by
    unfold logOf
    simp only [hstat]
    cases topLevelErr info with
    | none => simp
    | some e2 =>
      simp only [List.mem_singleton, LogEntry.errorFailedToGetUsage.injEq, true_and,
        Option.some.injEq]
      exact eq_comm
  rw [hlog]
  constructor
  · rintro ⟨d, _, hd⟩
    have hdd := logOf_error_directory Lstat d directory e hd
    subst hdd
    exact hown.1 hd
  · intro h
    exact ⟨directory, hmem, hown.2 h⟩

/-- C2, as stated, fails: the top-level stat of "/data" succeeds, but when the
directory cannot be opened, or when its listing fails after an 8-byte file has
been read, `GetUsage` returns no record for it. -/
theorem GetUsage_drops_failing_top_level :
    (GetUsage (lstatOnly "/data" unreadableDir) ["/data"]).diskUsed = [] ∧
    (GetUsage (lstatOnly "/data" unreadableDir) ["/data"]).log
      = [LogEntry.errorFailedToGetUsage "/data" "permission denied"] ∧
    (GetUsage (lstatOnly "/data" listingFailsDir) ["/data"]).diskUsed = [] ∧
    (GetUsage (lstatOnly "/data" listingFailsDir) ["/data"]).log
      = [LogEntry.errorFailedToGetUsage "/data" "input/output error"] := by
  decide

/-- C2, amended: for a requested path whose top-level stat succeeds, `GetUsage`
returns a record for that path exactly when the path is not a directory or its
own open and listing succeed; when the open or the listing of the path itself
fails, that error is logged as "Failed to get usage" for the path (and no such
line is logged otherwise) and the record is dropped.  Failures of directories
below the path do not drop the record: a directory that cannot be opened or
listed contributes its own reported size, the record carries what `getDiskUsed`
returns, and when the reported sizes are non-negative and the measured sizes
add up to less than `2 ^ 63` its `UsageBytes` is the sum of the measured sizes
and at least the sum of the contributions of any initial part of the listing. -/
theorem GetUsage_record_iff_topLevelOk (Lstat : String → Except Error FileInfo)
    (directories : List String) (directory : String) (info : FileInfo)
    (hmem : directory ∈ directories) (hstat : Lstat directory = .ok info) :
    ((∃ u ∈ (GetUsage Lstat directories).diskUsed, u.Directory = directory)
      ↔ topLevelOk info = true) ∧
    (∀ e : Error, LogEntry.errorFailedToGetUsage directory e
        ∈ (GetUsage Lstat directories).log ↔ topLevelErr info = some e) ∧
    (topLevelOk info = true ↔ topLevelErr info = none) ∧
    (∀ (path : String) (sub : FileInfo) (e : Error), topLevelErr sub = some e →
      getDiskUsed path sub = (sub.Size, some e)) ∧
    (topLevelOk info = true →
      (⟨directory, (getDiskUsed directory info).1⟩ : Usage)
          ∈ (GetUsage Lstat directories).diskUsed ∧
      (nonNeg info = true → measured info < 2 ^ 63 →
        (getDiskUsed directory info).1 = measured info ∧
        ∀ k : Nat,
          (contributions directory (info.listing.take k)).sum
            = measuredList (info.listing.take k) ∧
          (contributions directory (info.listing.take k)).sum
            ≤ (getDiskUsed directory info).1)) := by
  have hrec := recordOf_of_ok Lstat directory info hstat
  refine ⟨?_, fun e => mem_log_error Lstat directories directory info e hmem hstat,
    topLevelOk_iff_topLevelErr info, getDiskUsed_of_topLevelErr, ?_⟩
  · rw [GetUsage_diskUsed]
    constructor
    · rintro ⟨u, hu, hd⟩
      rw [List.mem_filterMap] at hu
      obtain ⟨d, _, hdu⟩ := hu
      have hdd := recordOf_directory Lstat d u hdu
      rw [hd] at hdd
      rw [← hdd, hrec] at hdu
      by_contra hc
      rw [if_neg hc] at hdu
      exact Option.noConfusion hdu
    · intro ht
      refine ⟨⟨directory, (getDiskUsed directory info).1⟩, ?_, rfl⟩
      rw [List.mem_filterMap]
      exact ⟨directory, hmem, by rw [hrec, if_pos ht]⟩
  · intro ht
    refine ⟨?_, ?_⟩
    · rw [GetUsage_diskUsed, List.mem_filterMap]
      exact ⟨directory, hmem, by rw [hrec, if_pos ht]⟩
    · intro hnn hfit
      have hval := getDiskUsed_fst_eq_measured directory info hnn hfit
      refine ⟨hval, fun k => ?_⟩
      rw [hval]
      cases info with
      | file name size =>
        simp only [nonNeg, decide_eq_true_eq] at hnn
        simpa [FileInfo.listing, contributions, realEntries, measured, measuredList]
          using hnn
      | dir name size openErr readdirErr files =>
        simp only [topLevelOk] at ht
        simp only [nonNeg, Bool.and_eq_true, decide_eq_true_eq] at hnn
        simp only [measured, ht, if_true] at hfit ⊢
        have hle := measuredList_take_le k files hnn.2
        simp only [FileInfo.listing]
        rw [contributions_sum directory (files.take k) (nonNegList_take k files hnn.2)
          (by omega)]
        exact ⟨rfl, by omega⟩

/-- Witness of `GetUsage_record_iff_topLevelOk`: a directory holding one readable
8-byte file followed by a directory of 4096 bytes that cannot be opened yields a
record of 4096 + 8 + 4096 bytes, at least 8, and no error line; a directory that
cannot be opened itself yields the error line "permission denied". -/
theorem GetUsage_record_iff_topLevelOk_witness :
    ("/data" ∈ ["/data"] ∧
      lstatOnly "/data" halfReadableDir "/data" = .ok halfReadableDir ∧
      topLevelOk halfReadableDir = true ∧
      nonNeg halfReadableDir = true ∧ measured halfReadableDir < 2 ^ 63 ∧
      topLevelErr (FileInfo.dir "locked" 4096 (some "permission denied") none
        [FileInfo.file "z" 100]) = some "permission denied") ∧
    (⟨"/data", 8200⟩ : Usage)
      ∈ (GetUsage (lstatOnly "/data" halfReadableDir) ["/data"]).diskUsed ∧
    (getDiskUsed "/data" halfReadableDir).1 = 8200 ∧
    (8 : Int) ≤ (getDiskUsed "/data" halfReadableDir).1 ∧
    getDiskUsed "/data/locked" (FileInfo.dir "locked" 4096 (some "permission denied") none
        [FileInfo.file "z" 100]) = (4096, some "permission denied") ∧
    LogEntry.errorFailedToGetUsage "/data" "permission denied"
      ∈ (GetUsage (lstatOnly "/data" unreadableDir) ["/data"]).log :=
  have h := GetUsage_record_iff_topLevelOk (lstatOnly "/data" halfReadableDir) ["/data"]
    "/data" halfReadableDir (by decide) rfl
  have hu := GetUsage_record_iff_topLevelOk (lstatOnly "/data" unreadableDir) ["/data"]
    "/data" unreadableDir (by decide) rfl
  have hv := (h.2.2.2.2 (by decide)).2 (by decide) (by decide)
  ⟨⟨by decide, rfl, by decide, by decide, by decide, rfl⟩,
    (h.2.2.2.2 (by decide)).1,
    hv.1.trans (by decide),
    le_of_eq_of_le (by decide) (hv.2 1).2,
    h.2.2.2.1 "/data/locked" _ "permission denied" rfl,
    (hu.2.1 "permission denied").2 rfl⟩

/-- C3: `GetUsage` returns a nil error for every list of paths and every
filesystem state; a path whose top-level stat fails has no record in the
result, and the records returned and published are those of the same request
without that path. -/
theorem GetUsage_nil_error_and_path_isolation (Lstat : String → Except Error FileInfo)
    (directories : List String) :
    (GetUsage Lstat directories).err = none ∧
    ∀ (missing : String) (e : Error), Lstat missing = .error e →
      (∀ u ∈ (GetUsage Lstat directories).diskUsed, u.Directory ≠ missing) ∧
      (GetUsage Lstat directories).diskUsed
        = (GetUsage Lstat (directories.filter (fun d => decide (d ≠ missing)))).diskUsed ∧
      (GetUsage Lstat directories).observed
        = (GetUsage Lstat (directories.filter (fun d => decide (d ≠ missing)))).observed := by
  refine ⟨rfl, fun missing e hstat => ?_⟩
  have hnone := recordOf_of_error Lstat missing e hstat
  have hfil := filterMap_recordOf_filter Lstat missing hnone directories
  refine ⟨?_, ?_, ?_⟩
  · intro u hu hd
    rw [GetUsage_diskUsed, List.mem_filterMap] at hu
    obtain ⟨d, _, hdu⟩ := hu
    have hdd := recordOf_directory Lstat d u hdu
    rw [hd] at hdd
    rw [← hdd, hnone] at hdu
    exact Option.noConfusion hdu
  · rw [GetUsage_diskUsed, GetUsage_diskUsed]
    exact hfil
  · rw [GetUsage_observed, GetUsage_observed, GetUsage_diskUsed, GetUsage_diskUsed]
    exact hfil

/-- Witness of `GetUsage_nil_error_and_path_isolation`: requesting "/exists" and
"/missing", of which only the first exists, yields exactly the record of
"/exists". -/
theorem GetUsage_nil_error_and_path_isolation_witness :
    lstatOnly "/exists" (FileInfo.file "exists" 7) "/missing"
      = .error "no such file or directory" ∧
    (GetUsage (lstatOnly "/exists" (FileInfo.file "exists" 7)) ["/exists", "/missing"]).err
      = none ∧
    (GetUsage (lstatOnly "/exists" (FileInfo.file "exists" 7)) ["/exists", "/missing"]).diskUsed
      = [⟨"/exists", 7⟩] :=
  have h := GetUsage_nil_error_and_path_isolation
    (lstatOnly "/exists" (FileInfo.file "exists" 7)) ["/exists", "/missing"]
  ⟨rfl, h.1, ((h.2 "/missing" "no such file or directory" rfl).2.1).trans (by decide)⟩

/-- C4: the `Directory` fields of the records returned by `GetUsage` form a
sublist of the requested paths, in the same relative order, and the records are
passed to `ObserveDiskUsage` in the order in which they are returned. -/
theorem GetUsage_directories_sublist (Lstat : String → Except Error FileInfo)
    (directories : List String) :
    List.Sublist ((GetUsage Lstat directories).diskUsed.map Usage.Directory) directories ∧
    (GetUsage Lstat directories).observed = (GetUsage Lstat directories).diskUsed := by
  refine ⟨?_, GetUsage_observed Lstat directories⟩
  rw [GetUsage_diskUsed]
  exact map_directory_sublist Lstat directories

/-- C8, as stated, fails: when the root directory and `B` report 4096 bytes
each, as directories do on common filesystems, the record for the root has
`UsageBytes = 8207`, not 15. -/
theorem GetUsage_composition_counts_directories :
    (GetUsage (lstatOnly "/root" (compositionTree 4096 4096)) ["/root"]).diskUsed
      = [⟨"/root", 8207⟩] ∧
    (GetUsage (lstatOnly "/root" (compositionTree 4096 4096)) ["/root"]).diskUsed
      ≠ [⟨"/root", 15⟩] := by
  decide

/-- C8, amended: for a root directory whose only entries are a file `A` of 10
bytes and a directory `B` whose only entry is a file `C` of 5 bytes, with every
stat and read succeeding, `GetUsage` of the root returns exactly one record, for
the root, whose `UsageBytes` is 15 plus the reported sizes of the root directory
and of `B` (the sizes being non-negative with a sum below `2 ^ 63`); it is 15
when both directories report 0 bytes. -/
theorem GetUsage_composition (Lstat : String → Except Error FileInfo) (root : String)
    (rootSize bSize : Int) (hstat : Lstat root = .ok (compositionTree rootSize bSize))
    (hroot : 0 ≤ rootSize) (hb : 0 ≤ bSize) (hfit : rootSize + bSize + 15 < 2 ^ 63) :
    (GetUsage Lstat [root]).diskUsed = [⟨root, 15 + rootSize + bSize⟩] ∧
    (GetUsage Lstat [root]).err = none := by
  refine ⟨?_, rfl⟩
  have hnn : nonNeg (compositionTree rootSize bSize) = true := by
    simp [compositionTree, nonNeg, nonNegList, hroot, hb]
  have hmeas : measured (compositionTree rootSize bSize) = 15 + rootSize + bSize := by
    have hA : isPseudo (FileInfo.file "A" 10) = false := by decide
    have hB : ∀ l, isPseudo (FileInfo.dir "B" bSize none none l) = false := fun _ => rfl
    have hC : isPseudo (FileInfo.file "C" 5) = false := by decide
    simp only [compositionTree, measured, measuredList, hA, hB, hC, Option.isNone_none,
      Bool.and_self, if_true, Bool.false_eq_true, if_false]
    omega
  have h1 := getDiskUsed_fst_eq_measured root (compositionTree rootSize bSize) hnn
    (by omega)
  have hr : recordOf Lstat root = some ⟨root, 15 + rootSize + bSize⟩ := by
    rw [recordOf_of_ok Lstat root _ hstat, if_pos (by simp [compositionTree, topLevelOk]),
      h1, hmeas]
  rw [GetUsage_diskUsed, List.filterMap_cons_some hr, List.filterMap_nil]

/-- Witness of `GetUsage_composition`: both directories report 0 bytes and the
record has `UsageBytes = 15`. -/
theorem GetUsage_composition_witness :
    lstatOnly "/root" (compositionTree 0 0) "/root" = .ok (compositionTree 0 0) ∧
    (0 : Int) ≤ 0 ∧ (0 : Int) + 0 + 15 < 2 ^ 63 ∧
    (GetUsage (lstatOnly "/root" (compositionTree 0 0)) ["/root"]).diskUsed
      = [⟨"/root", 15⟩] :=
  ⟨rfl, by decide, by decide,
    (GetUsage_composition (lstatOnly "/root" (compositionTree 0 0)) "/root" 0 0 rfl
      (by decide) (by decide) (by decide)).1⟩

end Disk

/-! ## Theorems: consensus subscription loop -/

namespace Consensus

theorem Since_gt_five_minutes (now t : Time) :
    Since now t > 5 * Minute ↔ now - t > 5 * Minute := by
  unfold Since Sub
  simp only [maxDuration, minDuration, Minute, Second]
  split_ifs <;> constructor <;> intro h <;> linarith

theorem check_true (now lastEventTime : Time) :
    subscriptionLoop.check now lastEventTime true
      = if now - lastEventTime > 5 * Minute then
          (false, [Action.infoReSubscribing lastEventTime])
        else (true, []) := by
  unfold subscriptionLoop.check
  by_cases h : now - lastEventTime > 5 * Minute
  · simp [h, (Since_gt_five_minutes now lastEventTime).2 h]
  · have h2 : ¬ Since now lastEventTime > 5 * Minute :=
      fun hc => h ((Since_gt_five_minutes now lastEventTime).1 hc)
    simp [h, h2]

theorem check_false (now lastEventTime : Time) :
    subscriptionLoop.check now lastEventTime false = (false, []) := by
  simp [subscriptionLoop.check]

theorem subscribe_true (SupportedEventTopics : List (String × Bool)) (m : Metrics)
    (ctx : Context) :
    subscriptionLoop.subscribe SupportedEventTopics m ctx true = (true, []) := by
  simp [subscriptionLoop.subscribe]

theorem subscribeAttempts_startSubscriptions (SupportedEventTopics : List (String × Bool))
    (m : Metrics) (ctx : Context) :
    subscribeAttempts (startSubscriptions SupportedEventTopics m ctx).2 = 1 := by
  unfold startSubscriptions subscribeAttempts
  cases m.client with
  | none => simp
  | some provider =>
    by_cases hp : provider.isEventsProvider = true
    · simp only [hp, Bool.not_true, Bool.false_eq_true, if_false]
      cases provider.Events ctx (startSubscriptions.topics SupportedEventTopics) <;> simp
    · simp [hp]

theorem subscribeAttempts_subscribe_false (SupportedEventTopics : List (String × Bool))
    (m : Metrics) (ctx : Context) :
    subscribeAttempts (subscriptionLoop.subscribe SupportedEventTopics m ctx false).2
      = if m.client.isSome = true then 1 else 0 := by
  have hs := subscribeAttempts_startSubscriptions SupportedEventTopics m ctx
  unfold subscriptionLoop.subscribe
  by_cases hc : m.client.isSome = true
  · simp only [hc, Bool.not_false, Bool.and_self, if_true]
    rcases hst : startSubscriptions SupportedEventTopics m ctx with ⟨err, acts⟩
    rw [hst] at hs
    cases err with
    | none => simpa using hs
    | some e =>
      simp only [subscribeAttempts] at hs ⊢
      rw [List.count_append, hs]
      simp
  · simp [hc, subscribeAttempts]

end Consensus

namespace Consensus

theorem foldl_topics (l : List (String × Bool)) : ∀ acc : List String,
    l.foldl
      (fun topics entry =>
        if entry.1 == "contribution_and_proof" then topics
        else if entry.2 then topics ++ [entry.1]
        else topics)
      acc
    = acc ++ (l.filter
        (fun entry => !(entry.1 == "contribution_and_proof") && entry.2)).map Prod.fst := by
  induction l with
  | nil => simp
  | cons e rest ih =>
    intro acc
    rw [List.foldl_cons, ih]
    by_cases hc : (e.1 == "contribution_and_proof") = true
    · simp [hc, List.filter_cons]
    · by_cases hs : e.2 = true
      · simp [hc, hs, List.filter_cons]
      · simp [hc, hs, List.filter_cons]

theorem topics_eq (l : List (String × Bool)) :
    startSubscriptions.topics l
      = (l.filter
          (fun entry => !(entry.1 == "contribution_and_proof") && entry.2)).map Prod.fst := by
  unfold startSubscriptions.topics
  rw [foldl_topics]
  simp

theorem mem_topics (l : List (String × Bool)) (topic : String) :
    topic ∈ startSubscriptions.topics l
      ↔ ((topic, true) ∈ l ∧ topic ≠ "contribution_and_proof") := by
  rw [topics_eq]
  simp only [List.mem_map, List.mem_filter, Bool.and_eq_true, Bool.not_eq_true',
    beq_eq_false_iff_ne, ne_eq]
  constructor
  · rintro ⟨⟨k, b⟩, ⟨hmem, hne, hb⟩, rfl⟩
    simp only at hb hne
    subst hb
    exact ⟨hmem, hne⟩
  · rintro ⟨hmem, hne⟩
    exact ⟨(topic, true), ⟨hmem, hne, rfl⟩, rfl⟩

theorem nodup_topics (l : List (String × Bool)) (hkeys : (l.map Prod.fst).Nodup) :
    (startSubscriptions.topics l).Nodup := by
  rw [topics_eq]
  exact List.Nodup.sublist (List.Sublist.map Prod.fst (List.filter_sublist l)) hkeys

theorem eventsCalls_startSubscriptions (SupportedEventTopics : List (String × Bool))
    (m : Metrics) (provider : Service) (ctx : Context) (hclient : m.client = some provider)
    (hprov : provider.isEventsProvider = true) :
    eventsCalls (startSubscriptions SupportedEventTopics m ctx).2
      = [startSubscriptions.topics SupportedEventTopics] := by
  unfold startSubscriptions
  simp only [hclient, hprov, Bool.not_true, Bool.false_eq_true, if_false]
  cases provider.Events ctx (startSubscriptions.topics SupportedEventTopics) <;>
    simp [eventsCalls]

/-- C7: when `startSubscriptions` reaches the subscribe call, it makes exactly
one call of `provider.Events`, and the topic list it passes contains a topic if
and only if the map of supported topics marks the topic supported and the topic
is not "contribution_and_proof"; every such topic occurs in the list exactly
once.  The keys of a Go map are distinct. -/
theorem startSubscriptions_topic_selection (SupportedEventTopics : List (String × Bool))
    (m : Metrics) (provider : Service) (ctx : Context)
    (hkeys : (SupportedEventTopics.map Prod.fst).Nodup)
    (hclient : m.client = some provider) (hprov : provider.isEventsProvider = true) :
    ∃ topics : List String,
      eventsCalls (startSubscriptions SupportedEventTopics m ctx).2 = [topics] ∧
      (∀ topic : String, topic ∈ topics
        ↔ ((topic, true) ∈ SupportedEventTopics ∧ topic ≠ "contribution_and_proof")) ∧
      (∀ topic : String,
        (topic, true) ∈ SupportedEventTopics ∧ topic ≠ "contribution_and_proof" →
        topics.count topic = 1) := by
  refine ⟨startSubscriptions.topics SupportedEventTopics,
    eventsCalls_startSubscriptions SupportedEventTopics m provider ctx hclient hprov,
    mem_topics SupportedEventTopics, fun topic h => ?_⟩
  exact List.count_eq_one_of_mem (nodup_topics SupportedEventTopics hkeys)
    ((mem_topics SupportedEventTopics topic).2 h)

/-- Witness of `startSubscriptions_topic_selection`: the map with "head" and
"block" supported, "contribution_and_proof" supported and "chain_reorg" not
supported passes the two topics "head" and "block". -/
theorem startSubscriptions_topic_selection_witness :
    (exampleTopics.map Prod.fst).Nodup ∧
    eventsCalls (startSubscriptions exampleTopics ⟨some acceptingService⟩ ⟨false⟩).2
      = [["head", "block"]] ∧
    (∃ topics : List String,
      eventsCalls (startSubscriptions exampleTopics ⟨some acceptingService⟩ ⟨false⟩).2
        = [topics] ∧
      (∀ topic : String, topic ∈ topics
        ↔ ((topic, true) ∈ exampleTopics ∧ topic ≠ "contribution_and_proof")) ∧
      (∀ topic : String,
        (topic, true) ∈ exampleTopics ∧ topic ≠ "contribution_and_proof" →
        topics.count topic = 1)) :=
  ⟨by decide, by decide,
    startSubscriptions_topic_selection exampleTopics ⟨some acceptingService⟩
      acceptingService ⟨false⟩ (by decide) rfl rfl⟩

end Consensus

namespace Consensus

theorem iteration_true (SupportedEventTopics : List (String × Bool)) (m : Metrics)
    (now lastEventTime : Time) (ctx : Context) :
    subscriptionLoop.iteration SupportedEventTopics m ⟨now, lastEventTime, ctx⟩ true
      = if now - lastEventTime > 5 * Minute then
          ((subscriptionLoop.subscribe SupportedEventTopics m ctx false).1,
            Action.infoReSubscribing lastEventTime
              :: (subscriptionLoop.subscribe SupportedEventTopics m ctx false).2)
        else (true, []) := by
  unfold subscriptionLoop.iteration
  simp only [check_true]
  by_cases h : now - lastEventTime > 5 * Minute
  · simp [h]
  · simp [h, subscribe_true]

theorem iteration_true_eq_iff (SupportedEventTopics : List (String × Bool)) (m : Metrics)
    (now lastEventTime : Time) (ctx : Context) :
    subscriptionLoop.iteration SupportedEventTopics m ⟨now, lastEventTime, ctx⟩ true
        = (true, [])
      ↔ now - lastEventTime ≤ 5 * Minute := by
  rw [iteration_true]
  by_cases h : now - lastEventTime > 5 * Minute
  · simp only [h, if_true]
    constructor
    · intro hc
      have := congrArg Prod.snd hc
      simp at this
    · intro hc
      exact absurd h (not_lt.mpr hc)
  · simp only [h, if_false, true_iff]
    exact not_lt.mp h

theorem subscribeAttempts_iteration_true (SupportedEventTopics : List (String × Bool))
    (m : Metrics) (now lastEventTime : Time) (ctx : Context) :
    subscribeAttempts
        (subscriptionLoop.iteration SupportedEventTopics m ⟨now, lastEventTime, ctx⟩ true).2
      = if 5 * Minute < now - lastEventTime ∧ m.client.isSome = true then 1 else 0 := by
  rw [iteration_true]
  by_cases h : now - lastEventTime > 5 * Minute
  · have h2 : 5 * Minute < now - lastEventTime := h
    have hs := subscribeAttempts_subscribe_false SupportedEventTopics m ctx
    simp only [h, if_true, h2, true_and]
    rw [← hs]
    simp [subscribeAttempts]
  · have h2 : ¬ 5 * Minute < now - lastEventTime := h
    simp [h, h2, subscribeAttempts]

/-- C5, as stated, fails: at a reading of the clock in 2026 an iteration that
starts with `subscribed = true` and a zero `LastEventTime` is flagged stale by
the check; with a client configured the subscribe call is issued again in the
same iteration, and with a nil client the state is left unsubscribed. -/
theorem zero_LastEventTime_flagged_stale :
    subscriptionLoop.check clock2026 zeroTime true
      = (false, [Action.infoReSubscribing zeroTime]) ∧
    subscriptionLoop.iteration exampleTopics ⟨some acceptingService⟩
        ⟨clock2026, zeroTime, ⟨false⟩⟩ true
      = (true, [Action.infoReSubscribing zeroTime, Action.infoStartingSubscriptions,
          Action.eventsCall ["head", "block"]]) ∧
    subscriptionLoop.iteration exampleTopics ⟨none⟩ ⟨clock2026, zeroTime, ⟨false⟩⟩ true
      = (false, [Action.infoReSubscribing zeroTime]) := by
  decide

/-- C5, amended: an iteration that starts with `subscribed = true` and a zero
`LastEventTime` leaves `subscribed` true and does nothing else exactly when the
clock reads at most 5 minutes after the zero time; at every later reading the
check sets `subscribed` to false and, when a client is configured,
`startSubscriptions` is called once in that iteration.  When `subscribed` is
false the check changes nothing and logs nothing. -/
theorem zero_LastEventTime_iteration (SupportedEventTopics : List (String × Bool))
    (m : Metrics) (now : Time) (ctx : Context) :
    ((subscriptionLoop.check now zeroTime true).1 = true ↔ now ≤ 5 * Minute) ∧
    (subscriptionLoop.iteration SupportedEventTopics m ⟨now, zeroTime, ctx⟩ true = (true, [])
      ↔ now ≤ 5 * Minute) ∧
    subscribeAttempts
        (subscriptionLoop.iteration SupportedEventTopics m ⟨now, zeroTime, ctx⟩ true).2
      = (if 5 * Minute < now ∧ m.client.isSome = true then 1 else 0) ∧
    subscriptionLoop.check now zeroTime false = (false, []) := by
  have hz : now - zeroTime = now := by simp [zeroTime]
  refine ⟨?_, ?_, ?_, check_false now zeroTime⟩
  · rw [check_true, hz]
    by_cases h : now > 5 * Minute
    · simp only [h, if_true]
      constructor
      · intro hc
        exact absurd hc (by simp)
      · intro hc
        exact absurd h (not_lt.mpr hc)
    · simp only [h, if_false, true_iff]
      exact not_lt.mp h
  · rw [iteration_true_eq_iff, hz]
  · rw [subscribeAttempts_iteration_true, hz]

/-- C6: in an iteration of `subscriptionLoop` that starts with
`subscribed = true`, the staleness check sets `subscribed` to false if and only
if the time elapsed since `LastEventTime` is strictly greater than 5 minutes;
`startSubscriptions` is called in that iteration exactly when that is the case
and a client is configured, and otherwise the iteration leaves `subscribed`
true and does nothing.  At 301 s elapsed the check sets `subscribed` to false,
at 299 s and at exactly 300 s the iteration changes nothing. -/
theorem staleness_check_iff (SupportedEventTopics : List (String × Bool))
    (m : Metrics) (now lastEventTime : Time) (ctx : Context) :
    ((subscriptionLoop.check now lastEventTime true).1 = false
      ↔ 5 * Minute < now - lastEventTime) ∧
    subscribeAttempts
        (subscriptionLoop.iteration SupportedEventTopics m ⟨now, lastEventTime, ctx⟩ true).2
      = (if 5 * Minute < now - lastEventTime ∧ m.client.isSome = true then 1 else 0) ∧
    (subscriptionLoop.iteration SupportedEventTopics m ⟨now, lastEventTime, ctx⟩ true
        = (true, [])
      ↔ now - lastEventTime ≤ 5 * Minute) ∧
    subscriptionLoop.check (lastEventTime + 301 * Second) lastEventTime true
      = (false, [Action.infoReSubscribing lastEventTime]) ∧
    subscriptionLoop.iteration SupportedEventTopics m
        ⟨lastEventTime + 299 * Second, lastEventTime, ctx⟩ true = (true, []) ∧
    subscriptionLoop.iteration SupportedEventTopics m
        ⟨lastEventTime + 300 * Second, lastEventTime, ctx⟩ true = (true, []) := by
  refine ⟨?_, subscribeAttempts_iteration_true SupportedEventTopics m now lastEventTime ctx,
    iteration_true_eq_iff SupportedEventTopics m now lastEventTime ctx, ?_, ?_, ?_⟩
  · rw [check_true]
    by_cases h : now - lastEventTime > 5 * Minute
    · have h2 : 5 * Minute < now - lastEventTime := h
      simp [h, h2]
    · have h2 : ¬ 5 * Minute < now - lastEventTime := h
      simp [h, h2]
  · rw [check_true, if_pos]
    simp only [Minute, Second]
    linarith
  · rw [iteration_true_eq_iff]
    simp only [Minute, Second]
    linarith
  · rw [iteration_true_eq_iff]
    simp only [Minute, Second]
    linarith

end Consensus

namespace Consensus

theorem run_returned (SupportedEventTopics : List (String × Bool)) (m : Metrics) :
    ∀ (ticks : List Tick) (subscribed : Bool),
    (subscriptionLoop.run SupportedEventTopics m ticks subscribed).returned = false
  | [], _ => rfl
  | tick :: rest, subscribed => by
    simp only [subscriptionLoop.run]
    exact run_returned SupportedEventTopics m rest _

theorem eventsCalls_append (a b : List Action) :
    eventsCalls (a ++ b) = eventsCalls a ++ eventsCalls b := by
  simp [eventsCalls, List.filterMap_append]

theorem run_cancelled : ∀ n : Nat,
    (subscriptionLoop.run exampleTopics ⟨some cancellableService⟩
        (List.replicate n cancelledTick) false).subscribed = false ∧
    (eventsCalls (subscriptionLoop.run exampleTopics ⟨some cancellableService⟩
        (List.replicate n cancelledTick) false).actions).length = n
  | 0 => by simp [subscriptionLoop.run, eventsCalls]
  | n + 1 => by
    have hit : subscriptionLoop.iteration exampleTopics ⟨some cancellableService⟩
        cancelledTick false
        = (false, [Action.infoStartingSubscriptions, Action.eventsCall ["head", "block"],
            Action.errorfFailedToSubscribe "context canceled"]) := by
      decide
    have ih := run_cancelled n
    simp only [List.replicate_succ, subscriptionLoop.run, hit, eventsCalls_append,
      List.length_append]
    refine ⟨ih.1, ?_⟩
    rw [ih.2]
    simp [eventsCalls]
    omega

end Consensus

namespace Disk

theorem loop_append_ctxDone (Lstat : String → Except Error FileInfo)
    (directories : List String) (post : List SelectCase) : ∀ pre : List SelectCase,
    StartAsync.loop Lstat directories (pre ++ SelectCase.ctxDone :: post)
      = StartAsync.loop Lstat directories (pre ++ [SelectCase.ctxDone])
  | [] => by simp [StartAsync.loop]
  | .ctxDone :: rest => by simp [StartAsync.loop]
  | .timeAfter :: rest => by
    have ih := loop_append_ctxDone Lstat directories post rest
    simp only [List.cons_append, StartAsync.loop]
    exact congrArg (fun r => (GetUsage Lstat directories :: r.1, r.2)) ih

theorem loop_ctxDone_returned (Lstat : String → Except Error FileInfo)
    (directories : List String) : ∀ pre : List SelectCase,
    (StartAsync.loop Lstat directories (pre ++ [SelectCase.ctxDone])).2 = true
  | [] => by simp [StartAsync.loop]
  | .ctxDone :: rest => by simp [StartAsync.loop]
  | .timeAfter :: rest => by
    simp only [List.cons_append, StartAsync.loop]
    exact loop_ctxDone_returned Lstat directories rest

end Disk

namespace Consensus

/-- C9 on the code: the disk-usage loop of `StartAsync` returns at the first
`select` that takes `ctx.Done()` and makes no `GetUsage` call after it, but
`subscriptionLoop` never returns, whatever the contexts of its iterations are,
and with a context that is cancelled from the start it still runs every
iteration and issues one subscribe call in each of them. -/
theorem subscriptionLoop_ignores_cancellation (n : Nat)
    (SupportedEventTopics : List (String × Bool)) (m : Metrics) (ticks : List Tick)
    (Lstat : String → Except Disk.Error Disk.FileInfo) (directories : List String)
    (pre post : List Disk.SelectCase) :
    (subscriptionLoop SupportedEventTopics m ticks).returned = false ∧
    (eventsCalls (subscriptionLoop exampleTopics ⟨some cancellableService⟩
        (List.replicate n cancelledTick)).actions).length = n ∧
    Disk.StartAsync.loop Lstat directories (pre ++ Disk.SelectCase.ctxDone :: post)
      = Disk.StartAsync.loop Lstat directories (pre ++ [Disk.SelectCase.ctxDone]) ∧
    (Disk.StartAsync.loop Lstat directories (pre ++ Disk.SelectCase.ctxDone :: post)).2
      = true := by
  refine ⟨run_returned SupportedEventTopics m ticks false, (run_cancelled n).2,
    Disk.loop_append_ctxDone Lstat directories post pre, ?_⟩
  rw [Disk.loop_append_ctxDone Lstat directories post pre]
  exact Disk.loop_ctxDone_returned Lstat directories pre

end Consensus
